import Mathlib

/-!
Shallow embedding of the call-ingestion and data-governance core of the
AI-Voice-Agent backend, together with proofs about its specified properties.

Conventions of the embedding:
* Timestamps (`Date` values) are modelled as natural numbers (milliseconds).
* Database rows are Lean structures; the persistent store is explicit state
  (lists of rows) threaded through the operations.
* Nullable columns are `Option` values; an omitted optional argument is `none`.
* JavaScript truthiness is reproduced where the source relies on it
  (`0` and the empty string are falsy).
* Fallible operations return `Except` values.
-/

namespace VoiceAgent

/-! ## Caller model (`prisma` Caller row and `CallerRepository`) -/

/-- A row of the `Caller` table.  Fields not touched by the verified
operations (`name`, `email`, JSON metadata) are omitted. -/
structure Caller where
  id : Nat
  tenantId : String
  phoneNumber : String
  isSaved : Bool
  expiresAt : Option Nat
  totalCalls : Nat
  lastCallAt : Option Nat
deriving DecidableEq

/-- Milliseconds in a day; used to model JavaScript date arithmetic that adds
whole days to the current time. -/
def msPerDay : Nat := 24 * 60 * 60 * 1000

namespace CallerRepository

/-- Model of `CallerRepository.create`: inserts a fresh `Caller` row with
`isSaved: false`, `totalCalls: 1` and the (optional) `expiresAt` passed by the
caller.  The database-assigned row id is taken as a parameter. -/
def create (id : Nat) (tenantId phoneNumber : String) (expiresAt : Option Nat) : Caller :=
  { id := id
    tenantId := tenantId
    phoneNumber := phoneNumber
    isSaved := false
    expiresAt := expiresAt
    totalCalls := 1
    lastCallAt := none }

/-- Model of `CallerRepository.saveCaller`: sets `isSaved: true` and clears `expiresAt`. -/
def saveCaller (c : Caller) : Caller :=
  { c with isSaved := true, expiresAt := none }

/-- Model of `CallerRepository.unsaveCaller`: sets `isSaved: false` and
`expiresAt := now + retentionDays` days (the source advances a `Date` by
`retentionDays` calendar days; day arithmetic is modelled as
`retentionDays * msPerDay`). -/
def unsaveCaller (now retentionDays : Nat) (c : Caller) : Caller :=
  { c with isSaved := false, expiresAt := some (now + retentionDays * msPerDay) }

/-- Model of `CallerRepository.updateLastCall`: bumps `totalCalls` and stamps
`lastCallAt`. -/
def updateLastCall (now : Nat) (c : Caller) : Caller :=
  { c with lastCallAt := some now, totalCalls := c.totalCalls + 1 }

end CallerRepository

/-! ## Call model (`prisma` Call row and `CallService.updateStatus`) -/

/-- The seven lifecycle states of a `Call`. -/
inductive CallStatus
  | RINGING
  | CONNECTING
  | IN_PROGRESS
  | COMPLETED
  | FAILED
  | NO_ANSWER
  | TRANSFERRED
deriving DecidableEq

/-- A status is terminal when no lifecycle transition is expected out of it. -/
def CallStatus.isTerminal : CallStatus → Bool
  | .COMPLETED | .FAILED | .NO_ANSWER | .TRANSFERRED => true
  | _ => false

/-- A row of the `Call` table (the fields read or written by
`CallService.updateStatus`). -/
structure Call where
  id : String
  externalId : String
  status : CallStatus
  startedAt : Nat
  answeredAt : Option Nat
  endedAt : Option Nat
  durationSecs : Option Nat
deriving DecidableEq

/-- The optional `data` argument of `CallService.updateStatus`. -/
structure UpdateStatusData where
  durationSecs : Option Nat := none
  endedAt : Option Nat := none
deriving DecidableEq

namespace CallService

/-- Model of `CallService.updateStatus` applied to the addressed row.  The update
object is built by object-spread, later keys overriding earlier ones:

* `status` is always written;
* `durationSecs` is written only when the supplied value is truthy
  (`data?.durationSecs && ...`), so a supplied `0` is dropped;
* a supplied `endedAt` date is written (a `Date` object is always truthy);
* when the new status is `COMPLETED`, `endedAt` is overwritten with `new
  Date()` (the current time), regardless of any previous or supplied value;
* when the new status is `IN_PROGRESS`, `answeredAt` is overwritten with the
  current time, regardless of any previous value. -/
def updateStatus (now : Nat) (c : Call) (status : CallStatus)
    (data : UpdateStatusData) : Call :=
  let c1 := { c with status := status }
  let c2 := match data.durationSecs with
    | some d => if d ≠ 0 then { c1 with durationSecs := some d } else c1
    | none => c1
  let c3 := match data.endedAt with
    | some e => { c2 with endedAt := some e }
    | none => c2
  let c4 := if status = .COMPLETED then { c3 with endedAt := some now } else c3
  if status = .IN_PROGRESS then { c4 with answeredAt := some now } else c4

/-- Store-level view of `CallService.updateStatus`: `prisma.call.update`
succeeds when a row with the given id exists and fails otherwise. -/
def updateStatusById (now : Nat) (calls : List Call) (id : String)
    (status : CallStatus) (data : UpdateStatusData) : Except String (List Call) :=
  if calls.any (fun c => c.id = id) then
    .ok (calls.map (fun c => if c.id = id then updateStatus now c status data else c))
  else
    .error "Record to update not found"

end CallService

/-! ## Data-cleanup job (`DataCleanupJob.run` / `DataCleanupJob.preview`) -/

/-- A row of the `Transcript` table (the fields the cleanup job touches). -/
structure TranscriptRow where
  id : Nat
  callId : String
deriving DecidableEq

/-- A row of the `Extraction` table. -/
structure ExtractionRow where
  id : Nat
  callId : String
deriving DecidableEq

/-- A row of the `Recording` table. -/
structure RecordingRow where
  id : Nat
  callId : String
deriving DecidableEq

/-- A row of the `Call` table as seen by the cleanup job (only `id` and the
owning `callerId` matter to it). -/
structure CallRow where
  id : String
  callerId : Nat
deriving DecidableEq

/-- The persistent store the cleanup job sweeps. -/
structure Db where
  callers : List Caller
  calls : List CallRow
  transcripts : List TranscriptRow
  extractions : List ExtractionRow
  recordings : List RecordingRow
deriving DecidableEq

/-- The `where` predicate of both sweeps:
`expiresAt < now AND isSaved = false`.  A null `expiresAt` never satisfies a
`lt` comparison, so saved callers (whose `expiresAt` is null) are excluded on
both counts. -/
def expiredPred (now : Nat) (c : Caller) : Bool :=
  (match c.expiresAt with
    | some e => decide (e < now)
    | none => false) && !c.isSaved

/-- One deletion statement issued by `DataCleanupJob.run`, in issue order. -/
inductive DelEvent
  | transcripts (callId : String)
  | extractions (callId : String)
  | recordings (callId : String)
  | calls (callerId : Nat)
  | caller (callerId : Nat)
deriving DecidableEq

/-- The aggregate result object returned by `DataCleanupJob.run`. -/
structure RunResult where
  success : Bool
  deletedCallers : Nat
  deletedCalls : Nat
  deletedTranscripts : Nat
  deletedExtractions : Nat
  errors : List String
deriving DecidableEq

/-- One entry of the preview sample (`id`, `phoneNumber`, `tenantId`,
`expiresAt`, and the per-caller call count exposed as `totalCalls`). -/
structure PreviewEntry where
  id : Nat
  phoneNumber : String
  tenantId : String
  expiresAt : Option Nat
  totalCalls : Nat
deriving DecidableEq

/-- The result object returned by `DataCleanupJob.preview`. -/
structure PreviewResult where
  wouldDelete : Nat
  callers : List PreviewEntry
deriving DecidableEq

namespace DataCleanupJob

/-- The inner loop body of `run` for a single call id: delete (and count) the
call's transcripts, then its extractions, then its recordings (whose count the
source discards). -/
def reapCallData (acc : Db × RunResult × List DelEvent) (callId : String) :
    Db × RunResult × List DelEvent :=
  let (db, res, log) := acc
  let tCount := (db.transcripts.filter (fun t => t.callId = callId)).length
  let db := { db with transcripts := db.transcripts.filter (fun t => !(t.callId = callId)) }
  let res := { res with deletedTranscripts := res.deletedTranscripts + tCount }
  let log := log ++ [DelEvent.transcripts callId]
  let eCount := (db.extractions.filter (fun e => e.callId = callId)).length
  let db := { db with extractions := db.extractions.filter (fun e => !(e.callId = callId)) }
  let res := { res with deletedExtractions := res.deletedExtractions + eCount }
  let log := log ++ [DelEvent.extractions callId]
  let db := { db with recordings := db.recordings.filter (fun r => !(r.callId = callId)) }
  let log := log ++ [DelEvent.recordings callId]
  (db, res, log)

/-- The outer loop body of `run` for one expired caller (paired with the call
ids that the initial query snapshot attached to it): per-call cleanup, then
`deleteMany` of the caller's calls, then deletion of the caller row itself. -/
def reapCaller (acc : Db × RunResult × List DelEvent) (entry : Caller × List String) :
    Db × RunResult × List DelEvent :=
  let (c, callIds) := entry
  let (db, res, log) := callIds.foldl reapCallData acc
  let cCount := (db.calls.filter (fun k => k.callerId = c.id)).length
  let db := { db with calls := db.calls.filter (fun k => !(k.callerId = c.id)) }
  let res := { res with deletedCalls := res.deletedCalls + cCount }
  let log := log ++ [DelEvent.calls c.id]
  let db := { db with callers := db.callers.filter (fun k => !(k.id = c.id)) }
  let res := { res with deletedCallers := res.deletedCallers + 1 }
  let log := log ++ [DelEvent.caller c.id]
  (db, res, log)

/-- Model of `DataCleanupJob.run`: select every caller matching `expiredPred` together
with the ids of its calls, then cascade deletion caller by caller.  The model
covers the happy path (no per-caller persistence failures), on which the
source reports `success: true` and an empty `errors` list. -/
def run (now : Nat) (db : Db) : Db × RunResult × List DelEvent :=
  let expired := (db.callers.filter (expiredPred now)).map
    (fun c => (c, (db.calls.filter (fun k => k.callerId = c.id)).map (fun k => k.id)))
  let res0 : RunResult :=
    { success := true
      deletedCallers := 0
      deletedCalls := 0
      deletedTranscripts := 0
      deletedExtractions := 0
      errors := [] }
  expired.foldl reapCaller (db, res0, [])

/-- Model of `DataCleanupJob.preview`: a read-only query for the first 100 callers
matching `expiredPred`, mapped to sample entries whose `totalCalls` field
carries the relation count `_count.calls`.  `wouldDelete` is the length of
the returned (capped) list.  The store is returned unchanged: the operation
only reads. -/
def preview (now : Nat) (db : Db) : Db × PreviewResult :=
  let sample := (db.callers.filter (expiredPred now)).take 100
  (db,
    { wouldDelete := sample.length
      callers := sample.map (fun c =>
        { id := c.id
          phoneNumber := c.phoneNumber
          tenantId := c.tenantId
          expiresAt := c.expiresAt
          totalCalls := (db.calls.filter (fun k => k.callerId = c.id)).length }) })

end DataCleanupJob

/-! ## Webhook middleware (`webhook-auth.middleware.ts`)

HTTP headers are `Option String` (`none` = absent).  JavaScript's falsiness
check `!signature` treats the empty string like an absent header, which the
model reproduces.  The HMAC primitive (`crypto.createHmac('sha1', secret)
... digest('base64')`) lives in the Node runtime, outside this repository;
it is a parameter `hmac : String → String → String` taking the secret and
the serialized payload. -/

/-- Outcome of one Express middleware: either control passes to the next
handler in the chain, or a response with the given status code and message is
sent and the chain stops. -/
inductive MwOutcome
  | next
  | respond (code : Nat) (msg : String)
deriving DecidableEq

/-- The configuration the Exotel validator reads (`env.EXOTEL_WEBHOOK_SECRET`
and `env.NODE_ENV`). -/
structure WebhookEnv where
  secret : Option String
  nodeEnv : String
deriving DecidableEq

/-- An incoming webhook request as the middleware sees it: the dedup-relevant
header and body fields, the Exotel signature header, and the JSON-serialized
body (`JSON.stringify(req.body)`). -/
structure WebhookRequest where
  webhookIdHeader : Option String
  callSid : Option String
  callIdField : Option String
  exotelSignature : Option String
  bodyJson : String
deriving DecidableEq

/-- JavaScript truthiness for an optional string: an absent value and the
empty string are both falsy. -/
def jsTruthy : Option String → Option String
  | some "" => none
  | o => o

/-- Model of `validateExotelWebhook`: reject with 401 when the signature header is
missing (falsy); when no secret is configured, skip validation in
`development` mode and fail with 500 otherwise; otherwise compare the header
against the base64 HMAC-SHA1 of the JSON-serialized body and 401 on
mismatch. -/
def validateExotelWebhook (hmac : String → String → String)
    (env : WebhookEnv) (req : WebhookRequest) : MwOutcome :=
  match jsTruthy req.exotelSignature with
  | none => .respond 401 "Missing Exotel signature"
  | some sig =>
    match jsTruthy env.secret with
    | none =>
      if env.nodeEnv = "development" then .next
      else .respond 500 "Webhook secret not configured"
    | some sec =>
      if sig = hmac sec req.bodyJson then .next
      else .respond 401 "Invalid Exotel signature"

/-- Model of `deduplicateWebhook`'s key derivation: the `x-webhook-id` header, else the
body's `CallSid`, else its `call_id`, else a fresh fallback built from the
clock and a random number (passed in as `fallback`). -/
def dedupKey (req : WebhookRequest) (fallback : String) : String :=
  ((jsTruthy req.webhookIdHeader).getD
    ((jsTruthy req.callSid).getD
      ((jsTruthy req.callIdField).getD fallback)))

/-- Model of `deduplicateWebhook` proper, acting on the `processedWebhooks` set
(modelled as a list in insertion order, oldest first): a seen key is answered
with HTTP 200 `Duplicate webhook ignored` and nothing else happens; an unseen
key is inserted, the oldest entry is evicted when the set exceeds 1000
entries, and control passes on. -/
def deduplicateWebhook (seen : List String) (key : String) :
    List String × MwOutcome :=
  if key ∈ seen then
    (seen, .respond 200 "Duplicate webhook ignored")
  else
    let seen := seen ++ [key]
    let seen := if seen.length > 1000 then seen.drop 1 else seen
    (seen, .next)

/-- The observable state threaded through the Exotel webhook pipeline: the
dedup set plus the log of requests that actually reached the downstream route
handler (each such request creates or mutates a `Call`; an entry records the
dedup key of the handled delivery). -/
structure PipelineState where
  seen : List String
  handled : List String
deriving DecidableEq

/-- Model of `exotelWebhookMiddleware` = `[deduplicateWebhook, validateExotelWebhook]`
followed by the route handler: deduplication runs first and registers the key
unconditionally; only a request that passes both middlewares reaches the
handler (outcome `.next`). -/
def processExotelWebhook (hmac : String → String → String) (env : WebhookEnv)
    (st : PipelineState) (req : WebhookRequest) (fallback : String) :
    PipelineState × MwOutcome :=
  match deduplicateWebhook st.seen (dedupKey req fallback) with
  | (seen, .respond c m) => ({ st with seen := seen }, .respond c m)
  | (seen, .next) =>
    match validateExotelWebhook hmac env req with
    | .respond c m => ({ st with seen := seen }, .respond c m)
    | .next => ({ seen := seen, handled := st.handled ++ [dedupKey req fallback] }, .next)

/-! ## Base64 (Node `Buffer` encoding used by the vault)

Bytes are natural numbers below 256.  Encoding maps groups of three bytes to
four alphabet characters, padding a final group of one or two bytes with
`=`.  Decoding mirrors Node's lenient decoder: every character outside the
base64 alphabet (including `=`) is skipped, and the remaining sextets are
recombined into bytes, discarding the unused low-order bits of a trailing
partial group. -/

/-- The base64 alphabet, in value order. -/
def b64Digits : List Char :=
  "ABCDEFGHIJKLMNOPQRSTUVWXYZabcdefghijklmnopqrstuvwxyz0123456789+/".toList

/-- The alphabet character for a sextet value. -/
def b64Char (n : Nat) : Char := b64Digits.getD n 'A'

/-- The sextet value of an alphabet character (`none` for `=`, `:` and every
other character outside the alphabet). -/
def b64Index (c : Char) : Option Nat := b64Digits.findIdx? (fun d => d = c)

/-- Base64-encode a byte list. -/
def base64Encode : List Nat → List Char
  | [] => []
  | [a] => [b64Char (a / 4), b64Char (a % 4 * 16), '=', '=']
  | [a, b] => [b64Char (a / 4), b64Char (a % 4 * 16 + b / 16), b64Char (b % 16 * 4), '=']
  | a :: b :: c :: rest =>
    b64Char (a / 4) :: b64Char (a % 4 * 16 + b / 16) ::
      b64Char (b % 16 * 4 + c / 64) :: b64Char (c % 64) :: base64Encode rest

/-- Recombine a list of sextet values into bytes (a trailing partial group
contributes its full bytes only, as in Node's decoder). -/
def bytesOfSextets : List Nat → List Nat
  | s0 :: s1 :: s2 :: s3 :: rest =>
    (s0 * 4 + s1 / 16) :: (s1 % 16 * 16 + s2 / 4) :: (s2 % 4 * 64 + s3) ::
      bytesOfSextets rest
  | [s0, s1, s2] => [s0 * 4 + s1 / 16, s1 % 16 * 16 + s2 / 4]
  | [s0, s1] => [s0 * 4 + s1 / 16]
  | _ => []

/-- Base64-decode a character list (leniently, as Node's `Buffer.from` with
the `base64` encoding does). -/
def base64Decode (s : List Char) : List Nat :=
  bytesOfSextets (s.filterMap b64Index)

/-! ## The vault's cipher primitive

`crypto.createCipheriv('aes-256-gcm', ...)` lives in the Node runtime, not in
this repository, so the authenticated cipher is a parameter of the embedding:
a pair of raw operations `enc : key → iv → plaintext → ciphertext × authTag`
and `dec : key → iv → ciphertext → authTag → Option plaintext`, together with
the properties of an (idealised) authenticated-encryption scheme stated
separately and assumed where a proof needs them. -/

/-- An authenticated cipher over byte lists. -/
structure AEAD where
  enc : List Nat → List Nat → List Nat → List Nat × List Nat
  dec : List Nat → List Nat → List Nat → List Nat → Option (List Nat)

namespace AEAD

/-- Decrypting an honest encryption returns the plaintext. -/
def Correct (s : AEAD) : Prop :=
  ∀ key iv pt, s.dec key iv (s.enc key iv pt).1 (s.enc key iv pt).2 = some pt

/-- Decryption succeeds only on honest encryptions (the tag is verified
before anything is returned). -/
def Auth (s : AEAD) : Prop :=
  ∀ key iv ct tag pt, s.dec key iv ct tag = some pt → s.enc key iv pt = (ct, tag)

/-- Ciphertext has the plaintext's length (true of AES-GCM's CTR core). -/
def LenPreserving (s : AEAD) : Prop :=
  ∀ key iv pt, (s.enc key iv pt).1.length = pt.length

/-- The authentication tag is never empty. -/
def TagNonempty (s : AEAD) : Prop :=
  ∀ key iv pt, (s.enc key iv pt).2 ≠ []

/-- Idealised unforgeability: under one key and IV, distinct plaintexts have
distinct tags. -/
def TagInjective (s : AEAD) : Prop :=
  ∀ key iv pt pt', (s.enc key iv pt).2 = (s.enc key iv pt').2 → pt = pt'

/-- The cipher emits bytes (values below 256) on byte-valued plaintext. -/
def ByteValued (s : AEAD) : Prop :=
  ∀ key iv pt, (∀ x ∈ pt, x < 256) →
    (∀ x ∈ (s.enc key iv pt).1, x < 256) ∧ (∀ x ∈ (s.enc key iv pt).2, x < 256)

end AEAD

/-! ## EncryptionService (`encryption.util.ts`) -/

/-- The `:`-splitting performed by `encryptedData.split(':')`, on strings
modelled as character lists. -/
def splitOnColon : List Char → List (List Char)
  | [] => [[]]
  | c :: rest =>
    if c = ':' then [] :: splitOnColon rest
    else
      match splitOnColon rest with
      | [] => [[c]]
      | seg :: segs => (c :: seg) :: segs

namespace EncryptionService

/-- Model of `EncryptionService.encrypt`: draw the cipher's output for the given
16-byte random IV and join the three base64 segments with `:` in the order
`iv:authTag:ciphertext`. -/
def encrypt (s : AEAD) (key iv pt : List Nat) : List Char :=
  base64Encode iv ++ ':' :: base64Encode (s.enc key iv pt).2 ++
    ':' :: base64Encode (s.enc key iv pt).1

/-- Model of `EncryptionService.decrypt`: split the token on `:`, destructure the
first three segments (ignoring any extras, as array destructuring does),
reject the token when any of the three is missing or empty, base64-decode
them and hand them to the cipher; a tag mismatch surfaces as the wrapped
decryption error. -/
def decrypt (s : AEAD) (key : List Nat) (token : List Char) :
    Except String (List Nat) :=
  match splitOnColon token with
  | ivB :: tagB :: ctB :: _ =>
    if ivB = [] ∨ tagB = [] ∨ ctB = [] then
      .error "Invalid encrypted data format"
    else
      match s.dec key (base64Decode ivB) (base64Decode ctB) (base64Decode tagB) with
      | some pt => .ok pt
      | none => .error "Decryption failed: Unsupported state or unable to authenticate data"
  | _ => .error "Invalid encrypted data format"

/-- Model of `EncryptionService.encryptObject`: JSON-serialize, then encrypt.  The JSON
serializer (`JSON.stringify`, a Node builtin) is a parameter producing the
UTF-8 bytes of the serialized value. -/
def encryptObject {α : Type} (s : AEAD) (stringify : α → List Nat)
    (key iv : List Nat) (v : α) : List Char :=
  encrypt s key iv (stringify v)

/-- Model of `EncryptionService.decryptObject`: decrypt, then JSON-parse
(`JSON.parse`, a Node builtin, is a parameter; its failure propagates). -/
def decryptObject {α : Type} (s : AEAD) (parse : List Nat → Option α)
    (key : List Nat) (token : List Char) : Except String α :=
  match decrypt s key token with
  | .error e => .error e
  | .ok pt =>
    match parse pt with
    | some v => .ok v
    | none => .error "Decryption failed: JSON parse error"

end EncryptionService

/-! ### Base64 lemmas -/

theorem b64Index_b64Char : ∀ n < 64, b64Index (b64Char n) = some n := by decide

theorem b64Char_ne_colon (n : Nat) : b64Char n ≠ ':' := by
  rcases Nat.lt_or_ge n 64 with h | h
  · revert h
    revert n
    decide
  · have hlen : b64Digits.length ≤ n := by
      simpa [b64Digits] using h
    unfold b64Char
    rw [List.getD_eq_default _ _ hlen]
    decide

theorem b64Index_eq_none : b64Index '=' = none := by decide

theorem colon_not_mem_base64Encode : ∀ (bs : List Nat), ':' ∉ base64Encode bs
  | [] => by simp [base64Encode]
  | [a] => by
    simp only [base64Encode, List.mem_cons, List.not_mem_nil, or_false]
    push_neg
    exact ⟨fun h => b64Char_ne_colon _ h.symm, fun h => b64Char_ne_colon _ h.symm,
      by decide, by decide⟩
  | [a, b] => by
    simp only [base64Encode, List.mem_cons, List.not_mem_nil, or_false]
    push_neg
    exact ⟨fun h => b64Char_ne_colon _ h.symm, fun h => b64Char_ne_colon _ h.symm,
      fun h => b64Char_ne_colon _ h.symm, by decide⟩
  | a :: b :: c :: rest => by
    simp only [base64Encode, List.mem_cons]
    push_neg
    refine ⟨fun h => b64Char_ne_colon _ h.symm, fun h => b64Char_ne_colon _ h.symm,
      fun h => b64Char_ne_colon _ h.symm, fun h => b64Char_ne_colon _ h.symm, ?_⟩
    exact colon_not_mem_base64Encode rest

theorem base64Encode_ne_nil : ∀ (bs : List Nat), bs ≠ [] → base64Encode bs ≠ []
  | [], h => absurd rfl h
  | [_], _ => by simp [base64Encode]
  | [_, _], _ => by simp [base64Encode]
  | _ :: _ :: _ :: _ :: _, _ => by simp [base64Encode]
  | [_, _, _], _ => by simp [base64Encode]

theorem base64_decode_encode :
    ∀ (bs : List Nat), (∀ x ∈ bs, x < 256) → base64Decode (base64Encode bs) = bs
  | [], _ => rfl
  | [a], h => by
    have ha : a < 256 := h a (by simp)
    have h0 := b64Index_b64Char (a / 4) (by omega)
    have h1 := b64Index_b64Char (a % 4 * 16) (by omega)
    simp only [base64Encode, base64Decode, List.filterMap_cons, h0, h1,
      b64Index_eq_none, List.filterMap_nil]
    show bytesOfSextets [a / 4, a % 4 * 16] = [a]
    simp only [bytesOfSextets, List.cons.injEq, and_true]
    omega
  | [a, b], h => by
    have ha : a < 256 := h a (by simp)
    have hb : b < 256 := h b (by simp)
    have h0 := b64Index_b64Char (a / 4) (by omega)
    have h1 := b64Index_b64Char (a % 4 * 16 + b / 16) (by omega)
    have h2 := b64Index_b64Char (b % 16 * 4) (by omega)
    simp only [base64Encode, base64Decode, List.filterMap_cons, h0, h1, h2,
      b64Index_eq_none, List.filterMap_nil]
    show bytesOfSextets [a / 4, a % 4 * 16 + b / 16, b % 16 * 4] = [a, b]
    simp only [bytesOfSextets, List.cons.injEq, and_true]
    constructor
    · omega
    · omega
  | a :: b :: c :: rest, h => by
    have ha : a < 256 := h a (by simp)
    have hb : b < 256 := h b (by simp)
    have hc : c < 256 := h c (by simp)
    have ih := base64_decode_encode rest (fun x hx => h x (by simp [List.mem_cons] at hx ⊢; tauto))
    have h0 := b64Index_b64Char (a / 4) (by omega)
    have h1 := b64Index_b64Char (a % 4 * 16 + b / 16) (by omega)
    have h2 := b64Index_b64Char (b % 16 * 4 + c / 64) (by omega)
    have h3 := b64Index_b64Char (c % 64) (by omega)
    simp only [base64Decode] at ih ⊢
    simp only [base64Encode, List.filterMap_cons, h0, h1, h2, h3]
    rw [bytesOfSextets]
    rw [ih]
    simp only [List.cons.injEq, and_true]
    refine ⟨by omega, by omega, by omega⟩

/-! ### Splitting lemmas -/

theorem splitOnColon_no_colon : ∀ (s : List Char), ':' ∉ s → splitOnColon s = [s]
  | [], _ => rfl
  | c :: rest, h => by
    have hc : ¬(c = ':') := fun hc => h (by simp [hc])
    have ih := splitOnColon_no_colon rest (fun hr => h (List.mem_cons_of_mem _ hr))
    simp only [splitOnColon, if_neg hc, ih]

theorem splitOnColon_append :
    ∀ (a t : List Char), ':' ∉ a → splitOnColon (a ++ ':' :: t) = a :: splitOnColon t
  | [], t, _ => by simp [splitOnColon]
  | c :: a, t, h => by
    have hc : ¬(c = ':') := fun hc => h (by simp [hc])
    have ih := splitOnColon_append a t (fun hr => h (List.mem_cons_of_mem _ hr))
    simp only [List.cons_append, splitOnColon, if_neg hc, List.append_eq, ih]

theorem splitOnColon_token (iv tag ct : List Char)
    (h1 : ':' ∉ iv) (h2 : ':' ∉ tag) (h3 : ':' ∉ ct) :
    splitOnColon (iv ++ ':' :: tag ++ ':' :: ct) = [iv, tag, ct] := by
  rw [show iv ++ ':' :: tag ++ ':' :: ct = iv ++ (':' :: (tag ++ (':' :: ct))) by simp]
  rw [splitOnColon_append _ _ h1, splitOnColon_append _ _ h2,
    splitOnColon_no_colon _ h3]

/-! ### A concrete cipher instance -/

/-- A concrete cipher satisfying all the idealised scheme properties, used to
instantiate the parametric theorems on concrete inputs. -/
def toyAEAD : AEAD :=
  { enc := fun _ _ pt => (pt, pt ++ [7])
    dec := fun _ _ ct tag => if tag = ct ++ [7] then some ct else none }

theorem toyAEAD_correct : toyAEAD.Correct := by
  intro key iv pt
  simp [toyAEAD, AEAD.Correct]

theorem toyAEAD_auth : toyAEAD.Auth := by
  intro key iv ct tag pt h
  simp only [toyAEAD] at h ⊢
  by_cases htag : tag = ct ++ [7]
  · rw [if_pos htag] at h
    cases h
    exact Prod.ext rfl htag.symm
  · rw [if_neg htag] at h
    cases h

theorem toyAEAD_lenPreserving : toyAEAD.LenPreserving := by
  intro key iv pt
  simp [toyAEAD]

theorem toyAEAD_tagNonempty : toyAEAD.TagNonempty := by
  intro key iv pt
  simp [toyAEAD]

theorem toyAEAD_tagInjective : toyAEAD.TagInjective := by
  intro key iv pt pt' h
  simpa [toyAEAD] using h

theorem toyAEAD_byteValued : toyAEAD.ByteValued := by
  intro key iv pt h
  refine ⟨h, ?_⟩
  intro x hx
  simp only [toyAEAD, List.mem_append, List.mem_singleton] at hx
  rcases hx with hx | hx
  · exact h x hx
  · omega

/-! ### Encryption round-trip lemmas -/

/-- Splitting an encrypted token recovers the three base64 segments. -/
theorem splitOnColon_encrypt (s : AEAD) (key iv pt : List Nat) :
    splitOnColon (EncryptionService.encrypt s key iv pt) =
      [base64Encode iv, base64Encode (s.enc key iv pt).2,
       base64Encode (s.enc key iv pt).1] := by
  unfold EncryptionService.encrypt
  exact splitOnColon_token _ _ _ (colon_not_mem_base64Encode _)
    (colon_not_mem_base64Encode _) (colon_not_mem_base64Encode _)

/-- The round trip `decrypt (encrypt pt) = pt` for a correct, length- and
byte-preserving cipher, a nonempty IV and a nonempty plaintext. -/
theorem decrypt_encrypt (s : AEAD) (hC : s.Correct) (hL : s.LenPreserving)
    (hT : s.TagNonempty) (hB : s.ByteValued) (key iv pt : List Nat)
    (hivB : ∀ x ∈ iv, x < 256) (hivNe : iv ≠ [])
    (hptB : ∀ x ∈ pt, x < 256) (hptNe : pt ≠ []) :
    EncryptionService.decrypt s key (EncryptionService.encrypt s key iv pt) =
      .ok pt := by
  obtain ⟨hctB, htagB⟩ := hB key iv pt hptB
  have hctNe : (s.enc key iv pt).1 ≠ [] := by
    intro h
    apply hptNe
    have hlen := hL key iv pt
    rw [h] at hlen
    exact List.length_eq_zero.mp hlen.symm
  have htagNe := hT key iv pt
  unfold EncryptionService.decrypt
  rw [splitOnColon_encrypt]
  simp only [base64Encode_ne_nil _ hivNe, base64Encode_ne_nil _ htagNe,
    base64Encode_ne_nil _ hctNe, or_self, false_or, if_false, ite_false,
    base64_decode_encode _ hivB, base64_decode_encode _ htagB,
    base64_decode_encode _ hctB, hC key iv pt]

/-- Tokens built from distinct (byte-valued) IVs are distinct. -/
theorem encrypt_ne_of_iv_ne (s : AEAD) (key iv iv2 pt : List Nat)
    (hivB : ∀ x ∈ iv, x < 256) (hiv2B : ∀ x ∈ iv2, x < 256)
    (hne : iv2 ≠ iv) :
    EncryptionService.encrypt s key iv2 pt ≠ EncryptionService.encrypt s key iv pt := by
  intro h
  apply hne
  have h2 := congrArg splitOnColon h
  rw [splitOnColon_encrypt, splitOnColon_encrypt] at h2
  have hhead : base64Encode iv2 = base64Encode iv := (List.cons.injEq _ _ _ _).mp h2 |>.1
  have h3 := congrArg base64Decode hhead
  rwa [base64_decode_encode _ hiv2B, base64_decode_encode _ hivB] at h3

/-- A `decrypt` that returns a plaintext from a token whose IV and tag
segments are honest encodings can only return the plaintext carrying that
tag, and the decoded ciphertext segment must be that plaintext's
ciphertext. -/
theorem decrypt_tampered_aux (s : AEAD) (hA : s.Auth) (hTI : s.TagInjective)
    (key iv pt : List Nat) (hivB : ∀ x ∈ iv, x < 256)
    (htagB : ∀ x ∈ (s.enc key iv pt).2, x < 256)
    (ctB2 : List Char) (hcol : ':' ∉ ctB2) (p : List Nat)
    (hok : EncryptionService.decrypt s key
      (base64Encode iv ++ ':' :: base64Encode (s.enc key iv pt).2 ++ ':' :: ctB2) =
        .ok p) :
    p = pt ∧ base64Decode ctB2 = (s.enc key iv pt).1 := by
  unfold EncryptionService.decrypt at hok
  rw [splitOnColon_token _ _ _ (colon_not_mem_base64Encode _)
    (colon_not_mem_base64Encode _) hcol] at hok
  simp only [base64_decode_encode _ hivB, base64_decode_encode _ htagB] at hok
  split at hok
  · cases hok
  · rcases hdec : s.dec key iv (base64Decode ctB2) (s.enc key iv pt).2 with _ | pt2
    · rw [hdec] at hok
      cases hok
    · rw [hdec] at hok
      cases hok
      have henc := hA key iv (base64Decode ctB2) (s.enc key iv pt).2 p hdec
      have hpt : p = pt := hTI key iv p pt (by rw [henc])
      subst hpt
      exact ⟨rfl, by rw [henc]⟩

/-! ### Webhook pipeline lemmas -/

/-- Does a middleware outcome reject the request with HTTP 401? -/
def MwOutcome.is401 : MwOutcome → Bool
  | .respond 401 _ => true
  | _ => false

theorem jsTruthy_some {s : String} (h : s ≠ "") : jsTruthy (some s) = some s := by
  unfold jsTruthy
  split
  · rename_i heq
    exact absurd (Option.some.inj heq) h
  · rfl

/-- After `deduplicateWebhook` runs on a key, the key is in the set, whether
it was a hit or a fresh insertion (eviction removes the oldest entry, never
the one just inserted). -/
theorem mem_seen_dedup (seen : List String) (key : String) :
    key ∈ (deduplicateWebhook seen key).1 := by
  unfold deduplicateWebhook
  by_cases hk : key ∈ seen
  · simp [hk]
  · simp only [hk, if_false, ite_false]
    split
    · rename_i hlen
      cases seen with
      | nil => simp at hlen
      | cons a as => simp
    · simp

/-- The dedup key of a processed delivery is in the pipeline state's seen set
afterwards, whatever the outcome (dedup hit, 401, 500, or handled). -/
theorem processExotel_seen (hmac : String → String → String) (env : WebhookEnv)
    (st : PipelineState) (req : WebhookRequest) (fb : String) :
    dedupKey req fb ∈ (processExotelWebhook hmac env st req fb).1.seen := by
  have h := mem_seen_dedup st.seen (dedupKey req fb)
  unfold processExotelWebhook
  rcases hd : deduplicateWebhook st.seen (dedupKey req fb) with ⟨seen', out⟩
  rw [hd] at h
  cases out with
  | respond c m => simpa using h
  | next => cases hv : validateExotelWebhook hmac env req <;> simpa [hv] using h

/-- A delivery whose dedup key is already in the seen set is answered with
HTTP 200 `Duplicate webhook ignored` and changes nothing. -/
theorem processExotel_hit (hmac : String → String → String) (env : WebhookEnv)
    (st : PipelineState) (req : WebhookRequest) (fb : String)
    (hmem : dedupKey req fb ∈ st.seen) :
    processExotelWebhook hmac env st req fb =
      (st, .respond 200 "Duplicate webhook ignored") := by
  unfold processExotelWebhook deduplicateWebhook
  simp [hmem]

/-- A second delivery with the dedup key of an already-processed one is
answered with HTTP 200 `Duplicate webhook ignored` and leaves the pipeline
state exactly as the first delivery left it. -/
theorem second_delivery_duplicate (hmac : String → String → String)
    (env : WebhookEnv) (st : PipelineState) (req1 req2 : WebhookRequest)
    (fb1 fb2 : String) (hkey : dedupKey req2 fb2 = dedupKey req1 fb1) :
    processExotelWebhook hmac env
        (processExotelWebhook hmac env st req1 fb1).1 req2 fb2 =
      ((processExotelWebhook hmac env st req1 fb1).1,
        .respond 200 "Duplicate webhook ignored") := by
  apply processExotel_hit
  rw [hkey]
  exact processExotel_seen hmac env st req1 fb1

/-- The retention invariant claimed for `Caller` rows:
`isSaved = true` exactly when `expiresAt` is null. -/
def callerInvariant (c : Caller) : Prop :=
  c.isSaved = true ↔ c.expiresAt = none

instance (c : Caller) : Decidable (callerInvariant c) := by
  unfold callerInvariant; infer_instance

/-! ## Claims C4 and C5 -/

deriving instance DecidableEq for Except

deriving instance DecidableEq for Except

/-- A 16-byte IV of zeros, standing in for one draw of
`crypto.randomBytes(16)`. -/
def iv16 : List Nat := List.replicate 16 0

/-- A second, distinct 16-byte IV. -/
def iv16b : List Nat := List.replicate 16 1

/-- A stand-in for `JSON.stringify` on a toy value type, producing the UTF-8
bytes of the serialization. -/
def toyStringify : Bool → List Nat
  | true => [116, 114, 117, 101]
  | false => [102, 97, 108, 115, 101]

/-- The matching stand-in for `JSON.parse`. -/
def toyParse (bs : List Nat) : Option Bool :=
  if bs = [116, 114, 117, 101] then some true
  else if bs = [102, 97, 108, 115, 101] then some false
  else none

/-- C4, counterexample: the round trip fails on the empty string.  Encrypting
`""` yields an empty ciphertext and hence an empty third token segment, which
`decrypt`'s falsiness check (`!encrypted`) rejects as
`Invalid encrypted data format` instead of returning `""`. -/
theorem C4_counterexample :
    EncryptionService.decrypt toyAEAD []
        (EncryptionService.encrypt toyAEAD [] iv16 []) =
      .error "Invalid encrypted data format" ∧
    EncryptionService.decrypt toyAEAD []
        (EncryptionService.encrypt toyAEAD [] iv16 []) ≠ .ok [] := by
  decide

/-- C4, amended: for every nonempty plaintext, `decrypt (encrypt x) = x`;
for every JSON-serializable value (whose serialization is nonempty, as JSON
serializations are), `decryptObject (encryptObject v) = v`; and two
encryptions of the same plaintext under distinct IVs produce distinct
tokens.  The round trip fails for the empty plaintext (empty ciphertext
segment). -/
theorem C4_roundtrip {α : Type} (s : AEAD) (hC : s.Correct)
    (hL : s.LenPreserving) (hT : s.TagNonempty) (hB : s.ByteValued)
    (key iv iv2 pt : List Nat)
    (hivB : ∀ x ∈ iv, x < 256) (hivNe : iv ≠ [])
    (hiv2B : ∀ x ∈ iv2, x < 256)
    (hptB : ∀ x ∈ pt, x < 256) (hptNe : pt ≠ [])
    (stringify : α → List Nat) (parse : List Nat → Option α) (v : α)
    (hsB : ∀ x ∈ stringify v, x < 256) (hsNe : stringify v ≠ [])
    (hparse : parse (stringify v) = some v) :
    EncryptionService.decrypt s key (EncryptionService.encrypt s key iv pt) =
      .ok pt ∧
    EncryptionService.decryptObject s parse key
      (EncryptionService.encryptObject s stringify key iv v) = .ok v ∧
    (iv2 ≠ iv →
      EncryptionService.encrypt s key iv2 pt ≠
        EncryptionService.encrypt s key iv pt) := by
  refine ⟨decrypt_encrypt s hC hL hT hB key iv pt hivB hivNe hptB hptNe, ?_,
    fun hne => encrypt_ne_of_iv_ne s key iv iv2 pt hivB hiv2B hne⟩
  unfold EncryptionService.decryptObject EncryptionService.encryptObject
  simp only [decrypt_encrypt s hC hL hT hB key iv _ hivB hivNe hsB hsNe, hparse]

/-- C4, witness: the amended round-trip theorem applied to the concrete
cipher instance, two concrete IVs, the plaintext bytes `"hi"`, and a concrete
serializable value. -/
theorem C4_witness :
    EncryptionService.decrypt toyAEAD []
        (EncryptionService.encrypt toyAEAD [] iv16 [104, 105]) = .ok [104, 105] ∧
    EncryptionService.decryptObject toyAEAD toyParse []
      (EncryptionService.encryptObject toyAEAD toyStringify [] iv16 true) =
        .ok true ∧
    (iv16b ≠ iv16 →
      EncryptionService.encrypt toyAEAD [] iv16b [104, 105] ≠
        EncryptionService.encrypt toyAEAD [] iv16 [104, 105]) :=
  C4_roundtrip toyAEAD toyAEAD_correct toyAEAD_lenPreserving toyAEAD_tagNonempty
    toyAEAD_byteValued [] iv16 iv16b [104, 105]
    (by decide) (by decide) (by decide) (by decide) (by decide)
    toyStringify toyParse true (by decide) (by decide) (by decide)

/-- The concrete token of the C5 counterexample: the honest encryption of the
byte `[5]` under a 16-byte zero IV. -/
def c5Token : List Char :=
  EncryptionService.encrypt toyAEAD [] (List.replicate 16 0) [5]

/-- C5, counterexample: altering one character of the token's ciphertext
segment (position 31 lies inside the third segment, `'Q'` becomes `'R'`) does
not make `decrypt` fail: the altered base64 text decodes to the same
ciphertext bytes (the change sits in the discarded padding bits), the tag
verifies, and `decrypt` returns the plaintext. -/
theorem C5_counterexample :
    c5Token.set 31 'R' ≠ c5Token ∧
    (c5Token.set 31 'R').length = c5Token.length ∧
    EncryptionService.decrypt toyAEAD [] (c5Token.set 31 'R') = .ok [5] := by
  decide

/-- C5, amended: `decrypt` fails with the format error on every token with
fewer than three segments; on a token whose IV and tag segments are honest
and whose ciphertext segment decodes to different ciphertext bytes, `decrypt`
fails (for an authenticated, tag-injective cipher); and whenever `decrypt`
does return a plaintext from such a token it is exactly the original
plaintext — never a wrong or partial one.  (An alteration of the ciphertext
segment's text that decodes to the same bytes, e.g. in base64 padding bits,
is not detected.) -/
theorem C5_tamper_detection (s : AEAD) (hA : s.Auth) (hTI : s.TagInjective)
    (key iv pt : List Nat) (hivB : ∀ x ∈ iv, x < 256)
    (htagB : ∀ x ∈ (s.enc key iv pt).2, x < 256)
    (ctB2 : List Char) (hcol : ':' ∉ ctB2) :
    (∀ token : List Char, (splitOnColon token).length < 3 →
      EncryptionService.decrypt s key token =
        .error "Invalid encrypted data format") ∧
    (∀ p, EncryptionService.decrypt s key
        (base64Encode iv ++ ':' :: base64Encode (s.enc key iv pt).2 ++
          ':' :: ctB2) = .ok p → p = pt) ∧
    (base64Decode ctB2 ≠ (s.enc key iv pt).1 →
      ∀ p, EncryptionService.decrypt s key
        (base64Encode iv ++ ':' :: base64Encode (s.enc key iv pt).2 ++
          ':' :: ctB2) ≠ .ok p) := by
  refine ⟨?_, ?_, ?_⟩
  · intro token hlen
    unfold EncryptionService.decrypt
    rcases hsp : splitOnColon token with _ | ⟨a, _ | ⟨b, _ | ⟨c, rest⟩⟩⟩
    · rfl
    · rfl
    · rfl
    · rw [hsp] at hlen
      simp at hlen
      omega
  · intro p hok
    exact (decrypt_tampered_aux s hA hTI key iv pt hivB htagB ctB2 hcol p hok).1
  · intro hctne p hok
    exact hctne
      (decrypt_tampered_aux s hA hTI key iv pt hivB htagB ctB2 hcol p hok).2

/-- C5, witness: the amended theorem applied to the concrete cipher, IV `[0]`,
plaintext `[5]` and the candidate ciphertext segment `"CQ=="`, which decodes
to `[9] ≠ [5]`. -/
theorem C5_witness :
    (∀ token : List Char, (splitOnColon token).length < 3 →
      EncryptionService.decrypt toyAEAD [] token =
        .error "Invalid encrypted data format") ∧
    (∀ p, EncryptionService.decrypt toyAEAD []
        (base64Encode [0] ++ ':' :: base64Encode (toyAEAD.enc [] [0] [5]).2 ++
          ':' :: ['C', 'Q', '=', '=']) = .ok p → p = [5]) ∧
    (base64Decode ['C', 'Q', '=', '='] ≠ (toyAEAD.enc [] [0] [5]).1 →
      ∀ p, EncryptionService.decrypt toyAEAD []
        (base64Encode [0] ++ ':' :: base64Encode (toyAEAD.enc [] [0] [5]).2 ++
          ':' :: ['C', 'Q', '=', '=']) ≠ .ok p) :=
  C5_tamper_detection toyAEAD toyAEAD_auth toyAEAD_tagInjective [] [0] [5]
    (by decide) (by decide) ['C', 'Q', '=', '='] (by decide)

/-! ## Claims C8, C9, C10 -/

/-- C8: a second webhook delivery whose dedup key equals that of an
already-processed delivery (still in the cache) is answered with HTTP 200
`Duplicate webhook ignored`, is not forwarded down the middleware chain, and
changes nothing: the pipeline state — including the record of deliveries that
reached the Call-creating handler — is exactly the state the first delivery
left. -/
theorem C8_duplicate_ignored (hmac : String → String → String)
    (env : WebhookEnv) (st : PipelineState) (req1 req2 : WebhookRequest)
    (fb1 fb2 : String) (hkey : dedupKey req2 fb2 = dedupKey req1 fb1) :
    processExotelWebhook hmac env
        (processExotelWebhook hmac env st req1 fb1).1 req2 fb2 =
      ((processExotelWebhook hmac env st req1 fb1).1,
        .respond 200 "Duplicate webhook ignored") ∧
    (processExotelWebhook hmac env
        (processExotelWebhook hmac env st req1 fb1).1 req2 fb2).1.handled =
      (processExotelWebhook hmac env st req1 fb1).1.handled := by
  have h := second_delivery_duplicate hmac env st req1 req2 fb1 fb2 hkey
  exact ⟨h, by rw [h]⟩

/-- The HMAC used by the C8/C10 witnesses: prefix the payload with a marker
(an injective, never-empty stand-in for the base64 HMAC). -/
def toyHmac (sec body : String) : String := sec ++ body

/-- A delivery with an explicit `x-webhook-id` and a valid-looking signature. -/
def c8Req1 : WebhookRequest :=
  { webhookIdHeader := some "evt-1"
    callSid := none
    callIdField := none
    exotelSignature := some (toyHmac "shh" "{}")
    bodyJson := "{}" }

/-- A retry of `c8Req1`: same webhook id, same body. -/
def c8Req2 : WebhookRequest := c8Req1

/-- A production-like environment with a configured Exotel secret. -/
def c8Env : WebhookEnv := { secret := some "shh", nodeEnv := "production" }

/-- C8, witness: the theorem applied to a concrete duplicate pair. -/
theorem C8_witness :
    processExotelWebhook toyHmac c8Env
        (processExotelWebhook toyHmac c8Env ⟨[], []⟩ c8Req1 "fb1").1 c8Req2 "fb2" =
      ((processExotelWebhook toyHmac c8Env ⟨[], []⟩ c8Req1 "fb1").1,
        .respond 200 "Duplicate webhook ignored") ∧
    (processExotelWebhook toyHmac c8Env
        (processExotelWebhook toyHmac c8Env ⟨[], []⟩ c8Req1 "fb1").1 c8Req2 "fb2").1.handled =
      (processExotelWebhook toyHmac c8Env ⟨[], []⟩ c8Req1 "fb1").1.handled :=
  C8_duplicate_ignored toyHmac c8Env ⟨[], []⟩ c8Req1 c8Req2 "fb1" "fb2" rfl

/-- C9: with a (truthy) Exotel secret configured and an HMAC that never
returns the empty string, the validator forwards a request exactly when its
`x-exotel-signature` header equals the HMAC of the serialized body under the
secret; replacing the signature by any other value yields a 401, and — for a
collision-free HMAC — so does any change to the body while keeping the
previously correct signature. -/
theorem C9_signature_iff (hmac : String → String → String) (env : WebhookEnv)
    (req : WebhookRequest) (sec : String)
    (hsec : env.secret = some sec) (hsecNe : sec ≠ "")
    (hne : ∀ body, hmac sec body ≠ "")
    (hinj : ∀ b b', hmac sec b = hmac sec b' → b = b') :
    (validateExotelWebhook hmac env req = .next ↔
      req.exotelSignature = some (hmac sec req.bodyJson)) ∧
    (∀ sig', sig' ≠ hmac sec req.bodyJson →
      (validateExotelWebhook hmac env
        { req with exotelSignature := some sig' }).is401 = true) ∧
    (∀ body', body' ≠ req.bodyJson →
      (validateExotelWebhook hmac env
        { req with exotelSignature := some (hmac sec req.bodyJson),
                   bodyJson := body' }).is401 = true) := by
  have hts := jsTruthy_some hsecNe
  refine ⟨?_, ?_, ?_⟩
  · cases hx : req.exotelSignature with
    | none =>
      simp only [validateExotelWebhook, hx, jsTruthy]
      constructor
      · intro h; cases h
      · intro h; cases h
    | some sig =>
      by_cases hsig : sig = ""
      · subst hsig
        simp only [validateExotelWebhook, hx, jsTruthy]
        constructor
        · intro h; cases h
        · intro h
          exact absurd (Option.some.inj h).symm (hne req.bodyJson)
      · simp only [validateExotelWebhook, hx, jsTruthy_some hsig, hsec, hts]
        by_cases he : sig = hmac sec req.bodyJson
        · simp [he]
        · simp only [if_neg he]
          constructor
          · intro h; cases h
          · intro h; exact absurd (Option.some.inj h) he
  · intro sig' hsig'
    by_cases hz : sig' = ""
    · subst hz
      simp [validateExotelWebhook, jsTruthy, MwOutcome.is401]
    · simp only [validateExotelWebhook, jsTruthy_some hz, hsec, hts]
      rw [if_neg ?_]
      · rfl
      · simpa using hsig'
  · intro body' hbody'
    have hz : hmac sec req.bodyJson ≠ "" := hne req.bodyJson
    simp only [validateExotelWebhook, jsTruthy_some hz, hsec, hts]
    rw [if_neg ?_]
    · rfl
    · intro h
      exact hbody' (hinj _ _ h.symm)

/-- The serialized bodies used by the C9 witness differ from `"{}"`. -/
def c9Req : WebhookRequest :=
  { webhookIdHeader := none
    callSid := none
    callIdField := none
    exotelSignature := some (toyHmac "shh" "{}")
    bodyJson := "{}" }

/-- C9, witness: the theorem applied to a concrete environment, secret and
request; the toy HMAC is injective and never empty because it prefixes the
secret to the payload. -/
theorem C9_witness :
    (validateExotelWebhook toyHmac c8Env c9Req = .next ↔
      c9Req.exotelSignature = some (toyHmac "shh" c9Req.bodyJson)) ∧
    (∀ sig', sig' ≠ toyHmac "shh" c9Req.bodyJson →
      (validateExotelWebhook toyHmac c8Env
        { c9Req with exotelSignature := some sig' }).is401 = true) ∧
    (∀ body', body' ≠ c9Req.bodyJson →
      (validateExotelWebhook toyHmac c8Env
        { c9Req with exotelSignature := some (toyHmac "shh" c9Req.bodyJson),
                     bodyJson := body' }).is401 = true) :=
  C9_signature_iff toyHmac c8Env c9Req "shh" rfl (by decide)
    (fun body h => by
      have h2 := congrArg String.length h
      simp [toyHmac, String.length_append] at h2
      exact absurd h2.1 (by decide))
    (fun b b' h => by
      have h2 := congrArg String.data h
      simp only [toyHmac, String.data_append] at h2
      exact String.ext (List.append_cancel_left h2))

/-- C10: because deduplication precedes signature verification and registers
the key before validating, a delivery rejected with 401 (bad or missing
signature) still marks its dedup key as seen: the rejected delivery never
reaches the handler, and an identical retry — even one carrying a correct
signature — is answered with HTTP 200 `Duplicate webhook ignored` without
being authenticated or processed. -/
theorem C10_dedup_before_auth (hmac : String → String → String)
    (env : WebhookEnv) (st : PipelineState) (req1 req2 : WebhookRequest)
    (fb1 fb2 : String)
    (hmiss : dedupKey req1 fb1 ∉ st.seen)
    (h401 : (validateExotelWebhook hmac env req1).is401 = true)
    (hkey : dedupKey req2 fb2 = dedupKey req1 fb1) :
    ((processExotelWebhook hmac env st req1 fb1).2).is401 = true ∧
    (processExotelWebhook hmac env st req1 fb1).1.handled = st.handled ∧
    processExotelWebhook hmac env
        (processExotelWebhook hmac env st req1 fb1).1 req2 fb2 =
      ((processExotelWebhook hmac env st req1 fb1).1,
        .respond 200 "Duplicate webhook ignored") := by
  have hdm : deduplicateWebhook st.seen (dedupKey req1 fb1) =
      (if (st.seen ++ [dedupKey req1 fb1]).length > 1000
        then (st.seen ++ [dedupKey req1 fb1]).drop 1
        else st.seen ++ [dedupKey req1 fb1], .next) := by
    unfold deduplicateWebhook
    rw [if_neg hmiss]
  refine ⟨?_, ?_, second_delivery_duplicate hmac env st req1 req2 fb1 fb2 hkey⟩
  · unfold processExotelWebhook
    rw [hdm]
    cases hv : validateExotelWebhook hmac env req1 with
    | next =>
      rw [hv] at h401
      simp [MwOutcome.is401] at h401
    | respond c m =>
      rw [hv] at h401
      exact h401
  · unfold processExotelWebhook
    rw [hdm]
    cases hv : validateExotelWebhook hmac env req1 with
    | next =>
      rw [hv] at h401
      simp [MwOutcome.is401] at h401
    | respond c m => rfl

/-- A first delivery of the C10 witness: correct webhook id but a wrong
signature, rejected 401. -/
def c10Req1 : WebhookRequest :=
  { webhookIdHeader := some "evt-9"
    callSid := none
    callIdField := none
    exotelSignature := some "wrong"
    bodyJson := "{}" }

/-- The C10 retry: identical webhook id, this time with the correct
signature. -/
def c10Req2 : WebhookRequest :=
  { c10Req1 with exotelSignature := some (toyHmac "shh" "{}") }

/-- C10, witness: the theorem applied to a concrete rejected-then-retried
pair. -/
theorem C10_witness :
    ((processExotelWebhook toyHmac c8Env ⟨[], []⟩ c10Req1 "fb1").2).is401 = true ∧
    (processExotelWebhook toyHmac c8Env ⟨[], []⟩ c10Req1 "fb1").1.handled = [] ∧
    processExotelWebhook toyHmac c8Env
        (processExotelWebhook toyHmac c8Env ⟨[], []⟩ c10Req1 "fb1").1 c10Req2 "fb2" =
      ((processExotelWebhook toyHmac c8Env ⟨[], []⟩ c10Req1 "fb1").1,
        .respond 200 "Duplicate webhook ignored") :=
  C10_dedup_before_auth toyHmac c8Env ⟨[], []⟩ c10Req1 c10Req2 "fb1" "fb2"
    (by decide) (by decide) rfl

/-! ## Claim C1 -/

/-- C1, counterexample: `CallerRepository.create` with the optional
`expiresAt` argument omitted produces a row with `isSaved = false` and
`expiresAt = null`, for which `isSaved == true ⇔ expiresAt == null` is
false. -/
theorem C1_counterexample :
    ¬ callerInvariant (CallerRepository.create 7 "tenant-1" "+15550100" none) := by
  decide

/-- C1, amended: the invariant `isSaved == true ⇔ expiresAt == null` holds
after `saveCaller`, after `unsaveCaller`, and after a `create` that supplies
an `expiresAt` value; a `create` that omits `expiresAt` violates it. -/
theorem C1_amended (id now days d : Nat) (t p : String) (c : Caller) :
    callerInvariant (CallerRepository.saveCaller c) ∧
    callerInvariant (CallerRepository.unsaveCaller now days c) ∧
    callerInvariant (CallerRepository.create id t p (some d)) := by
  refine ⟨?_, ?_, ?_⟩ <;>
    simp [callerInvariant, CallerRepository.saveCaller,
      CallerRepository.unsaveCaller, CallerRepository.create]

/-! ## Claims C2 and C3 -/

/-- A `Call` already in a terminal state with both `answeredAt` and `endedAt`
set. -/
def c2Call : Call :=
  { id := "call-1"
    externalId := "ext-1"
    status := .COMPLETED
    startedAt := 0
    answeredAt := some 5
    endedAt := some 10
    durationSecs := some 30 }

/-- C2, counterexample: a second `updateStatus(.., COMPLETED)` on a call whose
`endedAt` is already set overwrites `endedAt` with the time of the second
call, so the repeated terminal update is not idempotent. -/
theorem C2_counterexample :
    (CallService.updateStatus 20 c2Call .COMPLETED {}).endedAt ≠ c2Call.endedAt := by
  decide

/-- C2, amended: a second terminal `updateStatus` on an existing call is
accepted (the update succeeds); it never changes `answeredAt`, and with no
explicit `endedAt`/`durationSecs` supplied it leaves `endedAt` unchanged for
`FAILED`, `NO_ANSWER` and `TRANSFERRED` — but a repeated `COMPLETED`
overwrites the already-set `endedAt` with the current time. -/
theorem C2_amended (now : Nat) (calls : List Call) (c : Call)
    (hc : c ∈ calls) (s : CallStatus) (hs : s.isTerminal = true) :
    (∃ calls', CallService.updateStatusById now calls c.id s {} = .ok calls') ∧
    (CallService.updateStatus now c s {}).answeredAt = c.answeredAt ∧
    (CallService.updateStatus now c s {}).endedAt =
      (if s = .COMPLETED then some now else c.endedAt) := by
  refine ⟨?_, ?_, ?_⟩
  · unfold CallService.updateStatusById
    rw [if_pos (List.any_eq_true.mpr ⟨c, hc, by simp⟩)]
    exact ⟨_, rfl⟩
  · cases s <;> simp_all [CallService.updateStatus, CallStatus.isTerminal]
  · cases s <;> simp_all [CallService.updateStatus, CallStatus.isTerminal]

/-- C2, witness: the amended theorem applied to the concrete terminal call
`c2Call` and a second terminal status `FAILED` at time 20. -/
theorem C2_witness :
    (∃ calls', CallService.updateStatusById 20 [c2Call] c2Call.id .FAILED {} = .ok calls') ∧
    (CallService.updateStatus 20 c2Call .FAILED {}).answeredAt = c2Call.answeredAt ∧
    (CallService.updateStatus 20 c2Call .FAILED {}).endedAt =
      (if CallStatus.FAILED = .COMPLETED then some 20 else c2Call.endedAt) :=
  C2_amended 20 [c2Call] c2Call (by simp) .FAILED (by decide)

/-- A `Call` in progress, answered but not ended, with no stored duration. -/
def c3Call : Call :=
  { id := "call-3"
    externalId := "ext-3"
    status := .IN_PROGRESS
    startedAt := 0
    answeredAt := some 5
    endedAt := none
    durationSecs := none }

/-- C3, counterexample: three deviations from the claimed side effects.
A supplied `durationSecs` of `0` is dropped (falsy guard), not stored
verbatim; entering `TRANSFERRED` does not set the unset `endedAt`; and
entering `IN_PROGRESS` overwrites an `answeredAt` that was already set. -/
theorem C3_counterexample :
    (CallService.updateStatus 20 c3Call .COMPLETED { durationSecs := some 0 }).durationSecs
        = none ∧
    (CallService.updateStatus 20 c3Call .TRANSFERRED {}).endedAt = none ∧
    (CallService.updateStatus 20 c3Call .IN_PROGRESS {}).answeredAt = some 20 := by
  decide

/-- C3, amended: the exact side effects of `updateStatus` are: `status` is
written; `answeredAt` is overwritten with the current time exactly when the
new status is `IN_PROGRESS` (set or not); `endedAt` is overwritten with the
current time when the new status is `COMPLETED`, else with a supplied
`endedAt`, else left unchanged (`TRANSFERRED` alone does not set it); a
supplied nonzero `durationSecs` is stored verbatim but a supplied `0` is
ignored. -/
theorem C3_amended (now : Nat) (c : Call) (status : CallStatus)
    (data : UpdateStatusData) :
    (CallService.updateStatus now c status data).status = status ∧
    (CallService.updateStatus now c status data).answeredAt =
      (if status = .IN_PROGRESS then some now else c.answeredAt) ∧
    (CallService.updateStatus now c status data).endedAt =
      (if status = .COMPLETED then some now else
        match data.endedAt with
        | some e => some e
        | none => c.endedAt) ∧
    (CallService.updateStatus now c status data).durationSecs =
      (match data.durationSecs with
        | some d => if d = 0 then c.durationSecs else some d
        | none => c.durationSecs) := by
  obtain ⟨ds, ea⟩ := data
  cases ds with
  | none => cases ea <;> cases status <;> simp [CallService.updateStatus]
  | some d =>
    by_cases hd : d = 0 <;> cases ea <;> cases status <;>
      simp [CallService.updateStatus, hd]

/-! ## Claim C6 -/

/-- The reaper scenario: one expired, unsaved caller owning two calls, each
with one transcript and one extraction. -/
def c6Db : Db :=
  { callers := [{ id := 1, tenantId := "t1", phoneNumber := "+15550101",
                  isSaved := false, expiresAt := some 50, totalCalls := 2,
                  lastCallAt := some 60 }]
    calls := [{ id := "call-a", callerId := 1 }, { id := "call-b", callerId := 1 }]
    transcripts := [{ id := 100, callId := "call-a" }, { id := 101, callId := "call-b" }]
    extractions := [{ id := 200, callId := "call-a" }, { id := 201, callId := "call-b" }]
    recordings := [] }

/-- C6: on the scenario store, `run` deletes exactly 2 transcripts,
2 extractions, 2 calls and 1 caller, reports those counts (with
`success: true` and no errors), empties the store, and issues its deletions
per call in the order transcripts → extractions → recordings, then the
caller's calls, then the caller. -/
theorem C6_run :
    DataCleanupJob.run 100 c6Db =
      ({ callers := [], calls := [], transcripts := [], extractions := [],
         recordings := [] },
       { success := true, deletedCallers := 1, deletedCalls := 2,
         deletedTranscripts := 2, deletedExtractions := 2, errors := [] },
       [DelEvent.transcripts "call-a", DelEvent.extractions "call-a",
        DelEvent.recordings "call-a", DelEvent.transcripts "call-b",
        DelEvent.extractions "call-b", DelEvent.recordings "call-b",
        DelEvent.calls 1, DelEvent.caller 1]) := by
  decide

/-! ## Claim C7 -/

/-- An expired, unsaved caller with a given id, used to build a population of
more than 100 eligible callers. -/
def mkExpiredCaller (i : Nat) : Caller :=
  { id := i, tenantId := "t", phoneNumber := "+1555", isSaved := false,
    expiresAt := some 0, totalCalls := 1, lastCallAt := none }

/-- A store with 101 eligible callers. -/
def c7Db : Db :=
  { callers := (List.range 101).map mkExpiredCaller
    calls := []
    transcripts := []
    extractions := []
    recordings := [] }

/-- C7, counterexample: with 101 eligible callers, `preview` reports
`wouldDelete = 100` (the length of the capped sample), not the eligible total
of 101. -/
theorem C7_counterexample :
    (DataCleanupJob.preview 1 c7Db).2.wouldDelete = 100 ∧
    (c7Db.callers.filter (expiredPred 1)).length = 101 := by
  have hall : List.filter (expiredPred 1) (List.map mkExpiredCaller (List.range 101)) =
      List.map mkExpiredCaller (List.range 101) := by
    apply List.filter_eq_self.mpr
    intro a ha
    simp only [List.mem_map] at ha
    obtain ⟨i, _, rfl⟩ := ha
    rfl
  constructor
  · simp only [DataCleanupJob.preview, c7Db, hall, List.length_take,
      List.length_map, List.length_range]
    omega
  · simp only [c7Db, hall, List.length_map, List.length_range]

/-- C7, amended: `preview` never mutates the store; it reports as
`wouldDelete` the size of the sample capped at 100 (the eligible total only
when at most 100 callers are eligible), and the sample entries carry the
per-caller call counts. -/
theorem C7_amended (now : Nat) (db : Db) :
    (DataCleanupJob.preview now db).1 = db ∧
    (DataCleanupJob.preview now db).2.wouldDelete =
      min 100 (db.callers.filter (expiredPred now)).length ∧
    (DataCleanupJob.preview now db).2.callers =
      ((db.callers.filter (expiredPred now)).take 100).map (fun c =>
        { id := c.id
          phoneNumber := c.phoneNumber
          tenantId := c.tenantId
          expiresAt := c.expiresAt
          totalCalls := (db.calls.filter (fun k => k.callerId = c.id)).length }) := by
  refine ⟨rfl, ?_, rfl⟩
  simp [DataCleanupJob.preview]

end VoiceAgent
